import Mathlib

/-!
Shallow embedding of the apk metadata extractor (package paser, files
parser.go and example.go) together with proofs about the properties of its
specification.

The embedding models the pure computation of parser.go faithfully:

* Go string primitives used by the source (filepath.Ext, strings.HasPrefix,
  strings.HasSuffix, strings.Contains, strings.Cut, strings.Split,
  strings.Replace with empty replacement, strings.ToLower on ASCII digest
  text, strconv.Atoi) are embedded as computable functions over UTF-32
  character lists.
* The I/O environment of a NewAppParser run (os.Open, file.Stat,
  zip.NewReader, decoding AndroidManifest.xml, getApkMd5, openFile,
  pkg.icon, pkg.label, the external keytool invocation) is abstracted as an
  ApkEnv record holding each collaborator's outcome; the control flow of
  NewAppParser over these outcomes is embedded exactly.
* External actions whose mere occurrence matters to the specification
  (calling zip.NewReader, performing icon decoding work inside
  parseApkIconAndLabel) are recorded in an explicit effect log.
-/

namespace Paser

/-! ## Go string primitives -/

/-- strings.HasPrefix on character lists: the second list is an initial
segment of the first. -/
def listHasPre : List Char → List Char → Bool
  | _, [] => true
  | [], _ :: _ => false
  | c :: cs, d :: ds => c = d && listHasPre cs ds

/-- strings.HasPrefix. -/
def goHasPre (s p : String) : Bool :=
  listHasPre s.toList p.toList

/-- strings.HasSuffix. -/
def goHasSuf (s p : String) : Bool :=
  listHasPre s.toList.reverse p.toList.reverse

/-- Index of the first occurrence of sub in s, as the remainder of s starting
at that occurrence; none when sub does not occur (strings.Index / Cut). -/
def listFindSub (sub : List Char) : List Char → Option (List Char)
  | [] => if sub = [] then some [] else none
  | c :: rest =>
    if listHasPre (c :: rest) sub then some ((c :: rest).drop sub.length)
    else listFindSub sub rest

/-- strings.Contains. -/
def goContains (s sub : String) : Bool :=
  (listFindSub sub.toList s.toList).isSome

/-- The after component of strings.Cut(s, sep): the part of s after the first
occurrence of sep, empty when sep does not occur. -/
def goCutAfter (s sep : String) : String :=
  match listFindSub sep.toList s.toList with
  | some rest => String.mk rest
  | none => ""

/-- strings.Split(s, sep) for a one-character separator (the source only
splits on a newline). -/
def splitOnChar (sep : Char) : List Char → List (List Char)
  | [] => [[]]
  | c :: rest =>
    if c = sep then [] :: splitOnChar sep rest
    else
      match splitOnChar sep rest with
      | [] => [[c]]
      | l :: ls => (c :: l) :: ls

/-- strings.Replace(s, string(c), "", -1): remove every occurrence of the
one-character pattern (the source only replaces single spaces and colons by
the empty string). -/
def goStripChar (c : Char) (s : String) : String :=
  String.mk (s.toList.filter (fun d => d ≠ c))

/-- strings.ToLower; Go applies full Unicode case mapping, which agrees with
ASCII lowering on the hexadecimal digest text the source feeds it. -/
def goToLower (s : String) : String :=
  String.mk (s.toList.map Char.toLower)

/-- filepath.Ext: scan the path from its end; the suffix starting at the last
dot of the final path element, empty when that element has no dot. The first
argument is the already-scanned reversed tail. -/
def filepathExtRev : List Char → List Char → String
  | [], _ => ""
  | c :: rest, acc =>
    if c = '/' then ""
    else if c = '.' then String.mk (c :: acc)
    else filepathExtRev rest (c :: acc)

/-- filepath.Ext. -/
def filepathExt (path : String) : String :=
  filepathExtRev path.toList.reverse []

/-- Numeric value of a list of decimal digits. -/
def digitsToNat (cs : List Char) : Nat :=
  cs.foldl (fun n c => n * 10 + (c.toNat - 48)) 0

/-- The digit part of a candidate integer string whose first character is c:
the remainder when c is a sign, the whole character list otherwise. -/
def atoiDigits (c : Char) (rest : List Char) : List Char :=
  if c = '-' || c = '+' then rest else c :: rest

/-- strconv.Atoi for 64-bit int: optional sign followed by one or more
decimal digits; the result is the parsed value paired with the success flag.
A syntactically invalid string yields (0, false); a syntactically valid but
out-of-range string yields the clamped extremum with false (ErrRange), as
strconv.ParseInt does. -/
def goAtoi (s : String) : Int × Bool :=
  match s.toList with
  | [] => (0, false)
  | c :: rest =>
    if (atoiDigits c rest).isEmpty || !(atoiDigits c rest).all Char.isDigit then
      (0, false)
    else
      if c = '-' then
        if 9223372036854775808 < digitsToNat (atoiDigits c rest) then
          (-9223372036854775808, false)
        else (-(digitsToNat (atoiDigits c rest) : Int), true)
      else
        if 9223372036854775807 < digitsToNat (atoiDigits c rest) then
          (9223372036854775807, false)
        else ((digitsToNat (atoiDigits c rest) : Int), true)

/-- A decimal integer string: an optional sign followed by one or more
decimal digits. Exactly the strings on which strconv.Atoi does not report a
syntax error. -/
def isDecimalIntegerString (s : String) : Bool :=
  match s.toList with
  | [] => false
  | c :: rest =>
    !(atoiDigits c rest).isEmpty && (atoiDigits c rest).all Char.isDigit

/-! ## Data model of parser.go -/

/-- The expected archive extension (constant androidExt in parser.go). -/
def androidExt : String := ".apk"

/-- An icon image as an opaque decoded artifact (image.Image). -/
structure GoImage where
  data : List Nat
deriving DecidableEq, Repr

/-- One uses-permission element of androidManifest. -/
structure UsesPermissionElem where
  text : String
  name : String
deriving DecidableEq, Repr

/-- One permission element of androidManifest. -/
structure PermissionElem where
  text : String
  name : String
  protectionLevel : String
deriving DecidableEq, Repr

/-- The androidManifest structure decoded from AndroidManifest.xml. -/
structure AndroidManifest where
  package : String
  versionName : String
  versionCode : String
  usesPermission : List UsesPermissionElem
  permission : List PermissionElem
deriving DecidableEq, Repr

/-- The AppInfo record returned by NewAppParser; field defaults are the Go
zero values produced by new(AppInfo). -/
structure AppInfo where
  Name : String := ""
  BundleId : String := ""
  Version : String := ""
  Build : Int := 0
  Icon : Option GoImage := none
  Size : Int := 0
  SignatureMd5 : String := ""
  SignatureSha1 : String := ""
  SignatureSha256 : String := ""
  Md5 : String := ""
  UsesPermission : List String := []
  SupportOS64 : Bool := false
  SupportOS32 : Bool := false
deriving DecidableEq, Repr

/-! ## parseApkFile -/

/-- The field-extraction part of parseApkFile (parser.go lines 136-146):
version code via strconv.Atoi with the error discarded, bundle id and
version name copied from the manifest attributes, and the uses-permission
names accumulated by the append loop. -/
def parseApkFileOfManifest (manifest : AndroidManifest) : AppInfo :=
  let versionCode := (goAtoi manifest.versionCode).1
  { BundleId := manifest.package
    Version := manifest.versionName
    Build := versionCode
    UsesPermission :=
      manifest.usesPermission.foldl (fun acc p => acc ++ [p.name]) [] }

/-- parseApkFile (parser.go lines 126-147): nil manifest entry is the error
"AndroidManifest.xml not found"; a manifest decode error propagates; a
decoded manifest yields the extracted fields. -/
def parseApkFile (xmlFile : Option (Except String AndroidManifest)) :
    Except String AppInfo :=
  match xmlFile with
  | none => .error "AndroidManifest.xml not found"
  | some (.error e) => .error e
  | some (.ok manifest) => .ok (parseApkFileOfManifest manifest)

/-! ## getSignature -/

/-- One iteration of the line loop of getSignature (parser.go lines 230-243):
a line containing "MD5:" updates the MD5 accumulator with the text after the
first "MD5:" and skips the other checks (continue), likewise for "SHA1:" and
"SHA256:"; later matches overwrite earlier ones. -/
def signatureLineStep (acc : String × String × String) (line : String) :
    String × String × String :=
  if goContains line "MD5:" then (goCutAfter line "MD5:", acc.2.1, acc.2.2)
  else if goContains line "SHA1:" then (acc.1, goCutAfter line "SHA1:", acc.2.2)
  else if goContains line "SHA256:" then (acc.1, acc.2.1, goCutAfter line "SHA256:")
  else acc

/-- The normalization applied to each digest (parser.go lines 245-254):
spaces removed, colons removed, lower-cased. -/
def normalizeDigest (s : String) : String :=
  goToLower (goStripChar ':' (goStripChar ' ' s))

/-- getSignature (parser.go lines 208-255). The external keytool run is
abstracted as toolOutput: none when the tool is missing or exits non-zero
(keytoolCmd.Run returns an error), some out when it succeeds with stdout
out. An empty apk path or an empty tool path short-circuits to three empty
digests before any invocation. -/
def getSignature (apkPath keyToolPath : String) (toolOutput : Option String) :
    String × String × String :=
  if apkPath = "" || keyToolPath = "" then ("", "", "")
  else
    match toolOutput with
    | none => ("", "", "")
    | some out =>
      let lines := (splitOnChar '\n' out.toList).map String.mk
      let res := lines.foldl signatureLineStep ("", "", "")
      (normalizeDigest res.1, normalizeDigest res.2.1, normalizeDigest res.2.2)

/-! ## NewAppParser -/

/-- One zip archive entry, identified by its name. -/
structure ZipEntry where
  name : String
deriving DecidableEq, Repr

/-- The result of file.Stat(): base name and size in bytes. -/
structure FileStat where
  name : String
  size : Int
deriving DecidableEq, Repr

/-- The accumulator of the entry loop of NewAppParser (parser.go lines
75-95): whether AndroidManifest.xml was seen, and the hasSoFile,
supportOS64, supportOS32 flags. -/
structure ScanState where
  xmlFound : Bool
  hasSoFile : Bool
  supportOS64 : Bool
  supportOS32 : Bool
deriving DecidableEq, Repr

/-- One iteration of the entry loop of NewAppParser (parser.go lines
81-95). -/
def scanStep (st : ScanState) (f : ZipEntry) : ScanState :=
  { xmlFound := st.xmlFound || f.name = "AndroidManifest.xml"
    hasSoFile := st.hasSoFile || goHasSuf f.name ".so"
    supportOS64 := st.supportOS64 || goHasPre f.name "lib/arm64-v8a"
    supportOS32 := st.supportOS32 || goHasPre f.name "lib/armeabi" }

/-- The entry loop of NewAppParser over all archive entries. -/
def scanEntries (entries : List ZipEntry) : ScanState :=
  entries.foldl scanStep ⟨false, false, false, false⟩

/-- The architecture-flag assignment of NewAppParser (parser.go lines
100-107): when no .so entry and neither ABI directory was seen, both flags
are forced true; otherwise each flag is the result of its own scan. -/
def archFlags (st : ScanState) : Bool × Bool :=
  if !st.hasSoFile && !st.supportOS64 && !st.supportOS32 then (true, true)
  else (st.supportOS64, st.supportOS32)

/-- Observable external actions of a NewAppParser run that the specification
talks about: attempting zip.NewReader over the file contents, and performing
icon decoding work (the pkg.icon call inside parseApkIconAndLabel). -/
inductive Effect
  | zipOpen
  | iconDecode
deriving DecidableEq, Repr

/-- The outcome of every I/O collaborator of one NewAppParser run on one
input path: os.Open, file.Stat, zip.NewReader, the decode of the
AndroidManifest.xml entry (parseAndroidManifest), getApkMd5, openFile,
pkg.icon, pkg.label, and the external keytool invocation (none when the
tool is missing or exits non-zero). -/
structure ApkEnv where
  openRes : Except String Unit
  statRes : Except String FileStat
  zipEntries : Except String (List ZipEntry)
  manifestDecode : Except String AndroidManifest
  apkMd5Res : Except String String
  openPkgRes : Except String Unit
  iconRes : Except String GoImage
  labelRes : Except String String
  toolOutput : Option String

/-- NewAppParser (parser.go lines 54-123) over an abstract run environment,
returning the Go result together with the log of observable external
actions. Control flow mirrors the source: open and stat errors abort before
the extension check; a non-.apk extension aborts with "unknown platform"
before zip.NewReader is attempted; the entry scan feeds parseApkFile and the
architecture flags; getApkMd5 and getSignature errors are non-fatal;
parseApkIconAndLabel aborts only when openFile fails, while icon and label
lookup errors merely leave nil and "" (pkg.icon is called, hence icon
decoding work happens, whenever openFile succeeded, regardless of isIcon);
the icon is stored only when isIcon is set. -/
def newAppParser (env : ApkEnv) (name keyToolPath : String) (isIcon : Bool) :
    Except String AppInfo × List Effect :=
  match env.openRes with
  | .error e => (.error e, [])
  | .ok _ =>
    match env.statRes with
    | .error e => (.error e, [])
    | .ok stat =>
      if filepathExt stat.name ≠ androidExt then (.error "unknown platform", [])
      else
        match env.zipEntries with
        | .error e => (.error e, [Effect.zipOpen])
        | .ok entries =>
          let st := scanEntries entries
          match parseApkFile (if st.xmlFound then some env.manifestDecode else none) with
          | .error e => (.error e, [Effect.zipOpen])
          | .ok info0 =>
            let flags := archFlags st
            let apkMd5 := env.apkMd5Res.toOption.getD ""
            let sig := getSignature name keyToolPath env.toolOutput
            match env.openPkgRes with
            | .error e => (.error e, [Effect.zipOpen])
            | .ok _ =>
              let icon := env.iconRes.toOption
              let label := env.labelRes.toOption.getD ""
              (.ok { info0 with
                       SupportOS64 := flags.1
                       SupportOS32 := flags.2
                       Md5 := apkMd5
                       SignatureMd5 := sig.1
                       SignatureSha1 := sig.2.1
                       SignatureSha256 := sig.2.2
                       Name := label
                       Icon := if isIcon then icon else none
                       Size := stat.size },
               [Effect.zipOpen, Effect.iconDecode])

/-! ## Specification-side definitions -/

/-- A native-code entry as the archive scanner detects it (spec sections 2
and 9): a shared-object file, or an entry under one of the two checked ABI
directory prefixes. -/
def isNativeCodeEntry (n : String) : Bool :=
  goHasSuf n ".so" || goHasPre n "lib/arm64-v8a" || goHasPre n "lib/armeabi"

/-- The architecture rule as the specification words it: if the archive
contains no native-code entry at all, both flags are supported; otherwise
each flag holds exactly when some entry lies under its ABI directory
prefix. -/
def specArchFlags (names : List String) : Bool × Bool :=
  if names.any isNativeCodeEntry then
    (names.any (fun n => goHasPre n "lib/arm64-v8a"),
     names.any (fun n => goHasPre n "lib/armeabi"))
  else (true, true)

/-! ## Helper lemmas -/

theorem scanStep_foldl (entries : List ZipEntry) (st : ScanState) :
    entries.foldl scanStep st =
      ⟨st.xmlFound || entries.any (fun f => f.name = "AndroidManifest.xml"),
       st.hasSoFile || entries.any (fun f => goHasSuf f.name ".so"),
       st.supportOS64 || entries.any (fun f => goHasPre f.name "lib/arm64-v8a"),
       st.supportOS32 || entries.any (fun f => goHasPre f.name "lib/armeabi")⟩ := by
  induction entries generalizing st with
  | nil => simp
  | cons f fs ih => simp [scanStep, ih, Bool.or_assoc]

theorem scanEntries_spec (entries : List ZipEntry) :
    scanEntries entries =
      ⟨entries.any (fun f => f.name = "AndroidManifest.xml"),
       entries.any (fun f => goHasSuf f.name ".so"),
       entries.any (fun f => goHasPre f.name "lib/arm64-v8a"),
       entries.any (fun f => goHasPre f.name "lib/armeabi")⟩ := by
  simpa using scanStep_foldl entries ⟨false, false, false, false⟩

theorem list_any_or {α : Type} (l : List α) (p q : α → Bool) :
    l.any (fun x => p x || q x) = (l.any p || l.any q) := by
  induction l with
  | nil => simp
  | cons a as ih =>
    simp only [List.any_cons, ih]
    cases p a <;> cases q a <;> simp

/-- The architecture flags computed by the NewAppParser entry loop agree
with the specification's rule over the entry names. -/
theorem list_any_map {α β : Type} (l : List α) (f : α → β) (p : β → Bool) :
    (l.map f).any p = l.any (fun x => p (f x)) := by
  induction l with
  | nil => simp
  | cons a as ih => simp [ih]

theorem archFlags_eq_spec (entries : List ZipEntry) :
    archFlags (scanEntries entries) =
      specArchFlags (entries.map (fun f => f.name)) := by
  have hcond : (entries.map (fun f => f.name)).any isNativeCodeEntry =
      ((entries.any fun f => goHasSuf f.name ".so") ||
       (entries.any fun f => goHasPre f.name "lib/arm64-v8a") ||
       (entries.any fun f => goHasPre f.name "lib/armeabi")) := by
    simp only [list_any_map, isNativeCodeEntry, list_any_or]
  have h64 : (entries.map (fun f => f.name)).any
        (fun n => goHasPre n "lib/arm64-v8a") =
      entries.any fun f => goHasPre f.name "lib/arm64-v8a" := by
    simp only [list_any_map]
  have h32 : (entries.map (fun f => f.name)).any
        (fun n => goHasPre n "lib/armeabi") =
      entries.any fun f => goHasPre f.name "lib/armeabi" := by
    simp only [list_any_map]
  rw [scanEntries_spec]
  unfold archFlags specArchFlags
  rw [hcond, h64, h32]
  cases entries.any fun f => goHasSuf f.name ".so" <;>
    cases entries.any fun f => goHasPre f.name "lib/arm64-v8a" <;>
      cases entries.any fun f => goHasPre f.name "lib/armeabi" <;>
        simp

/-- Full description of a NewAppParser run in which every fatal collaborator
succeeds: open, stat, an .apk extension, the zip reader, the manifest entry
and its decode, and openFile. -/
theorem newAppParser_run (env : ApkEnv) (name keyToolPath : String)
    (isIcon : Bool) (stat : FileStat) (entries : List ZipEntry)
    (manifest : AndroidManifest)
    (h1 : env.openRes = .ok ()) (h2 : env.statRes = .ok stat)
    (h3 : filepathExt stat.name = androidExt)
    (h4 : env.zipEntries = .ok entries)
    (h5 : (scanEntries entries).xmlFound = true)
    (h6 : env.manifestDecode = .ok manifest)
    (h7 : env.openPkgRes = .ok ()) :
    newAppParser env name keyToolPath isIcon =
      (.ok { parseApkFileOfManifest manifest with
               SupportOS64 := (archFlags (scanEntries entries)).1
               SupportOS32 := (archFlags (scanEntries entries)).2
               Md5 := env.apkMd5Res.toOption.getD ""
               SignatureMd5 := (getSignature name keyToolPath env.toolOutput).1
               SignatureSha1 := (getSignature name keyToolPath env.toolOutput).2.1
               SignatureSha256 := (getSignature name keyToolPath env.toolOutput).2.2
               Name := env.labelRes.toOption.getD ""
               Icon := if isIcon then env.iconRes.toOption else none
               Size := stat.size },
       [Effect.zipOpen, Effect.iconDecode]) := by
  unfold newAppParser
  rw [h1, h2, h4, h6, h7]
  simp [h3, h5, parseApkFile]

/-! ## Concrete fixtures -/

/-- A concrete decoded manifest used by concrete runs. -/
def baseManifest : AndroidManifest :=
  { package := "com.example.app"
    versionName := "1.2.3"
    versionCode := "45"
    usesPermission :=
      [⟨"", "android.permission.CAMERA"⟩, ⟨"", "android.permission.INTERNET"⟩]
    permission := [] }

/-- A run environment in which every collaborator succeeds, over the given
archive entries; the external digest tool is unavailable. -/
def baseEnv (entries : List ZipEntry) : ApkEnv :=
  { openRes := .ok ()
    statRes := .ok ⟨"app.apk", 1024⟩
    zipEntries := .ok entries
    manifestDecode := .ok baseManifest
    apkMd5Res := .ok "d41d8cd98f00b204e9800998ecf8427e"
    openPkgRes := .ok ()
    iconRes := .ok ⟨[7]⟩
    labelRes := .ok "Example"
    toolOutput := none }

/-! ## Claims -/

/-- C1: for every archive processed by NewAppParser, the returned AppInfo's
architecture-support flags follow the specification's rule over the entry
names: if the archive contains no native-code entry at all (no name ending
in ".so" and no name under either checked ABI directory prefix — the
entries the spec's archive scanner detects as native code), both flags are
true; otherwise each flag holds exactly when some entry name begins with
the corresponding ABI directory prefix (lib/arm64-v8a for 64-bit,
lib/armeabi for 32-bit). -/
theorem newAppParser_archFlags_spec (env : ApkEnv) (name keyToolPath : String)
    (isIcon : Bool) (stat : FileStat) (entries : List ZipEntry)
    (manifest : AndroidManifest)
    (h1 : env.openRes = .ok ()) (h2 : env.statRes = .ok stat)
    (h3 : filepathExt stat.name = androidExt)
    (h4 : env.zipEntries = .ok entries)
    (h5 : (scanEntries entries).xmlFound = true)
    (h6 : env.manifestDecode = .ok manifest)
    (h7 : env.openPkgRes = .ok ()) :
    ∃ info : AppInfo, (newAppParser env name keyToolPath isIcon).1 = .ok info ∧
      (info.SupportOS64, info.SupportOS32) =
        specArchFlags (entries.map (fun f => f.name)) := by
  rw [newAppParser_run env name keyToolPath isIcon stat entries manifest
    h1 h2 h3 h4 h5 h6 h7]
  refine ⟨_, rfl, ?_⟩
  rw [← archFlags_eq_spec]

/-- C1 witness: the archive {AndroidManifest.xml} yields both flags true,
and the archive {AndroidManifest.xml, lib/arm64-v8a/libx.so} yields the
64-bit flag true and the 32-bit flag false. -/
theorem newAppParser_archFlags_spec_witness :
    (∃ info : AppInfo,
      (newAppParser (baseEnv [⟨"AndroidManifest.xml"⟩])
          "app.apk" "keytool" false).1 = .ok info ∧
      (info.SupportOS64, info.SupportOS32) = (true, true)) ∧
    (∃ info : AppInfo,
      (newAppParser (baseEnv [⟨"AndroidManifest.xml"⟩, ⟨"lib/arm64-v8a/libx.so"⟩])
          "app.apk" "keytool" false).1 = .ok info ∧
      (info.SupportOS64, info.SupportOS32) = (true, false)) := by
  constructor
  · obtain ⟨info, hinfo, hflags⟩ :=
      newAppParser_archFlags_spec (baseEnv [⟨"AndroidManifest.xml"⟩])
        "app.apk" "keytool" false ⟨"app.apk", 1024⟩ [⟨"AndroidManifest.xml"⟩]
        baseManifest rfl rfl (by decide) rfl (by decide) rfl rfl
    exact ⟨info, hinfo, hflags.trans (by decide)⟩
  · obtain ⟨info, hinfo, hflags⟩ :=
      newAppParser_archFlags_spec
        (baseEnv [⟨"AndroidManifest.xml"⟩, ⟨"lib/arm64-v8a/libx.so"⟩])
        "app.apk" "keytool" false ⟨"app.apk", 1024⟩
        [⟨"AndroidManifest.xml"⟩, ⟨"lib/arm64-v8a/libx.so"⟩]
        baseManifest rfl rfl (by decide) rfl (by decide) rfl rfl
    exact ⟨info, hinfo, hflags.trans (by decide)⟩

/-- C2: when open and stat succeed but the file's extension is not .apk,
NewAppParser fails with the FormatError "unknown platform" and its effect
log is empty, so in particular zip.NewReader over the file contents is
never attempted. -/
theorem newAppParser_ext_check (env : ApkEnv) (name keyToolPath : String)
    (isIcon : Bool) (stat : FileStat)
    (h1 : env.openRes = .ok ()) (h2 : env.statRes = .ok stat)
    (h3 : filepathExt stat.name ≠ androidExt) :
    newAppParser env name keyToolPath isIcon = (.error "unknown platform", []) ∧
      Effect.zipOpen ∉ (newAppParser env name keyToolPath isIcon).2 := by
  have h : newAppParser env name keyToolPath isIcon =
      (.error "unknown platform", []) := by
    unfold newAppParser
    rw [h1, h2]
    simp [h3]
  exact ⟨h, by rw [h]; simp⟩

/-- C2 witness: a .zip input path fails with "unknown platform" and an empty
effect log, however well-formed the underlying archive is. -/
theorem newAppParser_ext_check_witness :
    newAppParser { baseEnv [⟨"AndroidManifest.xml"⟩] with
        statRes := .ok ⟨"app.zip", 1024⟩ } "app.zip" "keytool" false =
      (.error "unknown platform", []) ∧
    Effect.zipOpen ∉
      (newAppParser { baseEnv [⟨"AndroidManifest.xml"⟩] with
          statRes := .ok ⟨"app.zip", 1024⟩ } "app.zip" "keytool" false).2 :=
  newAppParser_ext_check _ "app.zip" "keytool" false ⟨"app.zip", 1024⟩
    rfl rfl (by decide)

/-- C3 counterexample: on a concrete archive in which every collaborator
succeeds, the call with the icon flag set to false still performs icon
decoding work — pkg.icon is invoked inside parseApkIconAndLabel regardless
of the flag, so the iconDecode effect appears in the run's effect log, and
the run nevertheless succeeds. This refutes the part of the claim saying
the false-flag call performs no icon decoding work. -/
theorem newAppParser_icon_decode_counterexample :
    Effect.iconDecode ∈
      (newAppParser (baseEnv [⟨"AndroidManifest.xml"⟩])
        "app.apk" "keytool" false).2 ∧
    (newAppParser (baseEnv [⟨"AndroidManifest.xml"⟩])
        "app.apk" "keytool" false).2 =
      [Effect.zipOpen, Effect.iconDecode] := by
  constructor <;> decide

/-- C3 amended: the icon flag controls only whether the decoded icon is
stored in the returned record, not whether icon decoding work happens: on a
successful run, the false-flag call returns an AppInfo with no Icon, the
true-flag call returns the resolved icon in the Icon field, and the two
calls produce the same effect log (the same icon decoding work). -/
theorem newAppParser_icon_flag (env : ApkEnv) (name keyToolPath : String)
    (stat : FileStat) (entries : List ZipEntry) (manifest : AndroidManifest)
    (h1 : env.openRes = .ok ()) (h2 : env.statRes = .ok stat)
    (h3 : filepathExt stat.name = androidExt)
    (h4 : env.zipEntries = .ok entries)
    (h5 : (scanEntries entries).xmlFound = true)
    (h6 : env.manifestDecode = .ok manifest)
    (h7 : env.openPkgRes = .ok ()) :
    (∃ info : AppInfo, (newAppParser env name keyToolPath false).1 = .ok info ∧
      info.Icon = none) ∧
    (∃ info : AppInfo, (newAppParser env name keyToolPath true).1 = .ok info ∧
      info.Icon = env.iconRes.toOption) ∧
    (newAppParser env name keyToolPath false).2 =
      (newAppParser env name keyToolPath true).2 := by
  rw [newAppParser_run env name keyToolPath false stat entries manifest
    h1 h2 h3 h4 h5 h6 h7,
    newAppParser_run env name keyToolPath true stat entries manifest
    h1 h2 h3 h4 h5 h6 h7]
  exact ⟨⟨_, rfl, rfl⟩, ⟨_, rfl, rfl⟩, rfl⟩

/-- C3 witness: the amended claim at a concrete successful run whose icon
lookup resolves to a concrete image. -/
theorem newAppParser_icon_flag_witness :
    (∃ info : AppInfo,
      (newAppParser (baseEnv [⟨"AndroidManifest.xml"⟩])
          "app.apk" "keytool" false).1 = .ok info ∧ info.Icon = none) ∧
    (∃ info : AppInfo,
      (newAppParser (baseEnv [⟨"AndroidManifest.xml"⟩])
          "app.apk" "keytool" true).1 = .ok info ∧
      info.Icon = (baseEnv [⟨"AndroidManifest.xml"⟩]).iconRes.toOption) ∧
    (newAppParser (baseEnv [⟨"AndroidManifest.xml"⟩])
        "app.apk" "keytool" false).2 =
      (newAppParser (baseEnv [⟨"AndroidManifest.xml"⟩])
          "app.apk" "keytool" true).2 :=
  newAppParser_icon_flag (baseEnv [⟨"AndroidManifest.xml"⟩]) "app.apk"
    "keytool" ⟨"app.apk", 1024⟩ [⟨"AndroidManifest.xml"⟩] baseManifest
    rfl rfl (by decide) rfl (by decide) rfl rfl

/-- C4: a failed icon or label resource lookup never fails the extraction:
when openFile succeeds and the icon or label lookup inside
parseApkIconAndLabel returns an error, NewAppParser still returns an
AppInfo with a nil error, with the corresponding Icon/Name field left
empty (nil icon, empty name). -/
theorem newAppParser_lookup_error_nonfatal (env : ApkEnv)
    (name keyToolPath : String) (isIcon : Bool) (stat : FileStat)
    (entries : List ZipEntry) (manifest : AndroidManifest)
    (h1 : env.openRes = .ok ()) (h2 : env.statRes = .ok stat)
    (h3 : filepathExt stat.name = androidExt)
    (h4 : env.zipEntries = .ok entries)
    (h5 : (scanEntries entries).xmlFound = true)
    (h6 : env.manifestDecode = .ok manifest)
    (h7 : env.openPkgRes = .ok ())
    (hfail : (∃ e, env.iconRes = .error e) ∨ (∃ e, env.labelRes = .error e)) :
    ∃ info : AppInfo, (newAppParser env name keyToolPath isIcon).1 = .ok info ∧
      (∀ e, env.iconRes = .error e → info.Icon = none) ∧
      (∀ e, env.labelRes = .error e → info.Name = "") := by
  rw [newAppParser_run env name keyToolPath isIcon stat entries manifest
    h1 h2 h3 h4 h5 h6 h7]
  refine ⟨_, rfl, fun e he => ?_, fun e he => ?_⟩
  · simp [he, Except.toOption]
  · simp [he, Except.toOption]

/-- C4 witness: a concrete run in which both the icon and the label lookup
fail still succeeds, with a nil icon and an empty name. -/
theorem newAppParser_lookup_error_nonfatal_witness :
    ∃ info : AppInfo,
      (newAppParser { baseEnv [⟨"AndroidManifest.xml"⟩] with
          iconRes := .error "icon not found"
          labelRes := .error "label not found" }
        "app.apk" "keytool" true).1 = .ok info ∧
      (∀ e, ({ baseEnv [⟨"AndroidManifest.xml"⟩] with
          iconRes := .error "icon not found"
          labelRes := .error "label not found" } : ApkEnv).iconRes =
            .error e → info.Icon = none) ∧
      (∀ e, ({ baseEnv [⟨"AndroidManifest.xml"⟩] with
          iconRes := .error "icon not found"
          labelRes := .error "label not found" } : ApkEnv).labelRes =
            .error e → info.Name = "") :=
  newAppParser_lookup_error_nonfatal _ "app.apk" "keytool" true
    ⟨"app.apk", 1024⟩ [⟨"AndroidManifest.xml"⟩] baseManifest
    rfl rfl (by decide) rfl (by decide) rfl rfl
    (Or.inl ⟨"icon not found", rfl⟩)

/-- C5: when the decoded manifest's root attributes are
package="com.example.app", versionName="1.2.3" and versionCode="45", the
returned AppInfo has BundleId "com.example.app", Version "1.2.3" and Build
45; and these three fields are always taken directly from the manifest
attributes (the bundle id and version verbatim, the build as the Atoi value
of the versionCode attribute), with no resource resolution involved. -/
theorem newAppParser_manifest_fields (env : ApkEnv) (name keyToolPath : String)
    (isIcon : Bool) (stat : FileStat) (entries : List ZipEntry)
    (manifest : AndroidManifest)
    (h1 : env.openRes = .ok ()) (h2 : env.statRes = .ok stat)
    (h3 : filepathExt stat.name = androidExt)
    (h4 : env.zipEntries = .ok entries)
    (h5 : (scanEntries entries).xmlFound = true)
    (h6 : env.manifestDecode = .ok manifest)
    (h7 : env.openPkgRes = .ok ())
    (hp : manifest.package = "com.example.app")
    (hv : manifest.versionName = "1.2.3")
    (hc : manifest.versionCode = "45") :
    ∃ info : AppInfo, (newAppParser env name keyToolPath isIcon).1 = .ok info ∧
      info.BundleId = "com.example.app" ∧
      info.Version = "1.2.3" ∧
      info.Build = 45 ∧
      info.BundleId = manifest.package ∧
      info.Version = manifest.versionName ∧
      info.Build = (goAtoi manifest.versionCode).1 := by
  rw [newAppParser_run env name keyToolPath isIcon stat entries manifest
    h1 h2 h3 h4 h5 h6 h7]
  refine ⟨_, rfl, ?_, ?_, ?_, rfl, rfl, rfl⟩ <;>
    simp [parseApkFileOfManifest, hp, hv, hc] <;> decide

/-- C5 witness: a concrete run over a manifest with exactly those root
attributes. -/
theorem newAppParser_manifest_fields_witness :
    ∃ info : AppInfo,
      (newAppParser (baseEnv [⟨"AndroidManifest.xml"⟩])
          "app.apk" "keytool" false).1 = .ok info ∧
      info.BundleId = "com.example.app" ∧
      info.Version = "1.2.3" ∧
      info.Build = 45 ∧
      info.BundleId = baseManifest.package ∧
      info.Version = baseManifest.versionName ∧
      info.Build = (goAtoi baseManifest.versionCode).1 :=
  newAppParser_manifest_fields (baseEnv [⟨"AndroidManifest.xml"⟩]) "app.apk"
    "keytool" false ⟨"app.apk", 1024⟩ [⟨"AndroidManifest.xml"⟩] baseManifest
    rfl rfl (by decide) rfl (by decide) rfl rfl rfl rfl rfl

theorem foldl_append_name (l : List UsesPermissionElem) (acc : List String) :
    l.foldl (fun acc p => acc ++ [p.name]) acc = acc ++ l.map (fun p => p.name) := by
  induction l generalizing acc with
  | nil => simp
  | cons p ps ih => simp [ih]

/-- C6: the UsesPermission list of the returned AppInfo is exactly the name
attribute of every uses-permission element of the manifest, in declaration
order, duplicates preserved (the list is the order-preserving map of the
name attribute over the manifest's uses-permission elements). -/
theorem newAppParser_permissions (env : ApkEnv) (name keyToolPath : String)
    (isIcon : Bool) (stat : FileStat) (entries : List ZipEntry)
    (manifest : AndroidManifest)
    (h1 : env.openRes = .ok ()) (h2 : env.statRes = .ok stat)
    (h3 : filepathExt stat.name = androidExt)
    (h4 : env.zipEntries = .ok entries)
    (h5 : (scanEntries entries).xmlFound = true)
    (h6 : env.manifestDecode = .ok manifest)
    (h7 : env.openPkgRes = .ok ()) :
    ∃ info : AppInfo, (newAppParser env name keyToolPath isIcon).1 = .ok info ∧
      info.UsesPermission = manifest.usesPermission.map (fun p => p.name) := by
  rw [newAppParser_run env name keyToolPath isIcon stat entries manifest
    h1 h2 h3 h4 h5 h6 h7]
  refine ⟨_, rfl, ?_⟩
  simp [parseApkFileOfManifest, foldl_append_name]

/-- C6 witness: two uses-permission elements named android.permission.CAMERA
and android.permission.INTERNET yield exactly those two strings in that
order. -/
theorem newAppParser_permissions_witness :
    ∃ info : AppInfo,
      (newAppParser (baseEnv [⟨"AndroidManifest.xml"⟩])
          "app.apk" "keytool" false).1 = .ok info ∧
      info.UsesPermission =
        ["android.permission.CAMERA", "android.permission.INTERNET"] := by
  obtain ⟨info, hinfo, hperm⟩ :=
    newAppParser_permissions (baseEnv [⟨"AndroidManifest.xml"⟩]) "app.apk"
      "keytool" false ⟨"app.apk", 1024⟩ [⟨"AndroidManifest.xml"⟩] baseManifest
      rfl rfl (by decide) rfl (by decide) rfl rfl
  exact ⟨info, hinfo, hperm.trans (by decide)⟩

/-- C7: the signature digests degrade rather than fail: an empty apk path,
an empty tool path, or a missing/non-zero-exiting external tool yields
three empty digest strings from getSignature; on a full NewAppParser run
with the tool unavailable, the extraction still succeeds with the three
signature fields empty; and a successful tool whose output line is
"MD5:  AB:CD:EF:01" normalizes to the MD5 digest "abcdef01" (whitespace and
colons stripped, lower-cased). -/
theorem getSignature_degrades :
    (∀ (apkPath keyToolPath : String) (toolOutput : Option String),
      apkPath = "" ∨ keyToolPath = "" ∨ toolOutput = none →
      getSignature apkPath keyToolPath toolOutput = ("", "", "")) ∧
    (∀ (env : ApkEnv) (name keyToolPath : String) (isIcon : Bool)
        (stat : FileStat) (entries : List ZipEntry)
        (manifest : AndroidManifest),
      env.openRes = .ok () → env.statRes = .ok stat →
      filepathExt stat.name = androidExt →
      env.zipEntries = .ok entries →
      (scanEntries entries).xmlFound = true →
      env.manifestDecode = .ok manifest →
      env.openPkgRes = .ok () →
      env.toolOutput = none →
      ∃ info : AppInfo,
        (newAppParser env name keyToolPath isIcon).1 = .ok info ∧
        info.SignatureMd5 = "" ∧ info.SignatureSha1 = "" ∧
        info.SignatureSha256 = "") ∧
    getSignature "app.apk" "keytool" (some "MD5:  AB:CD:EF:01") =
      ("abcdef01", "", "") := by
  refine ⟨?_, ?_, by decide⟩
  · rintro apkPath keyToolPath toolOutput (h | h | h) <;>
      simp [getSignature, h]
  · intro env name keyToolPath isIcon stat entries manifest
      h1 h2 h3 h4 h5 h6 h7 ht
    rw [newAppParser_run env name keyToolPath isIcon stat entries manifest
      h1 h2 h3 h4 h5 h6 h7]
    refine ⟨_, rfl, ?_, ?_, ?_⟩ <;> simp [ht, getSignature]

/-- C7 witness: the degradation and the normalization at concrete inputs: a
present apk path and tool path with a failing tool yield empty digests, and
a full concrete run with the tool unavailable succeeds with empty signature
fields. -/
theorem getSignature_degrades_witness :
    getSignature "app.apk" "keytool" none = ("", "", "") ∧
    ∃ info : AppInfo,
      (newAppParser (baseEnv [⟨"AndroidManifest.xml"⟩])
          "app.apk" "keytool" false).1 = .ok info ∧
      info.SignatureMd5 = "" ∧ info.SignatureSha1 = "" ∧
      info.SignatureSha256 = "" :=
  ⟨getSignature_degrades.1 "app.apk" "keytool" none (Or.inr (Or.inr rfl)),
   getSignature_degrades.2.1 (baseEnv [⟨"AndroidManifest.xml"⟩]) "app.apk"
     "keytool" false ⟨"app.apk", 1024⟩ [⟨"AndroidManifest.xml"⟩] baseManifest
     rfl rfl (by decide) rfl (by decide) rfl rfl rfl⟩

/-! ## Resource resolver (spec section 4.3) -/

/-- Modelled from the spec: the Resource Resolver called by parser.go
through openFile / pkg.icon / pkg.label lives in repository files not
present under src/; its value side is modelled from the spec's words: a
resource table maps resource ids to values that are either literals or
references to another resource id. -/
inductive ResValue
  | literal (s : String)
  | reference (id : Nat)
deriving DecidableEq, Repr

/-- Modelled from the spec: resolution failure conditions — a not-found
condition for an id with no recorded entry, and the resource-cycle error
for indirection beyond the bound. -/
inductive ResolveError
  | notFound
  | resourceCycle
deriving DecidableEq, Repr

/-- Modelled from the spec: the fixed maximum indirection depth
("bounded, e.g. 10"). -/
def maxIndirectionDepth : Nat := 10

/-- Modelled from the spec: lookup of the value recorded for a resource id
in a table held as an association list. -/
def lookupRes (table : List (Nat × ResValue)) (id : Nat) : Option ResValue :=
  (table.find? (fun p => p.1 == id)).map (fun p => p.2)

/-- Modelled from the spec: follow value-reference indirection with an
explicit remaining-depth counter: a literal resolves, an unrecorded id is
not-found, and a reference met with the depth budget exhausted fails with
the resource-cycle error instead of looping. The function is structurally
recursive on the counter, so resolution always terminates. -/
def resolveRefAux (table : List (Nat × ResValue)) : Nat → Nat → Except ResolveError String
  | id, depth =>
    match lookupRes table id with
    | none => .error .notFound
    | some (.literal s) => .ok s
    | some (.reference next) =>
      match depth with
      | 0 => .error .resourceCycle
      | d + 1 => resolveRefAux table next d

/-- Modelled from the spec: resolve a resource id, following references up
to the fixed maximum indirection depth. -/
def resolveRes (table : List (Nat × ResValue)) (id : Nat) : Except ResolveError String :=
  resolveRefAux table id maxIndirectionDepth

/-- Positions 0..k of the reference chain starting at id hold references:
the table maps id to a reference whose target again satisfies the property
for k-1 further steps. A chain with this property at depth k is longer than
k indirections. -/
def allRefsUpTo (table : List (Nat × ResValue)) : Nat → Nat → Bool
  | id, 0 =>
    match lookupRes table id with
    | some (.reference _) => true
    | _ => false
  | id, k + 1 =>
    match lookupRes table id with
    | some (.reference next) => allRefsUpTo table next k
    | _ => false

theorem resolveRefAux_cycle (table : List (Nat × ResValue)) :
    ∀ (depth id : Nat), allRefsUpTo table id depth = true →
      resolveRefAux table id depth = .error .resourceCycle := by
  intro depth
  induction depth with
  | zero =>
    intro id h
    unfold allRefsUpTo at h
    unfold resolveRefAux
    cases hl : lookupRes table id with
    | none => rw [hl] at h; exact Bool.noConfusion h
    | some v =>
      cases v with
      | literal s => rw [hl] at h; exact Bool.noConfusion h
      | reference next => rfl
  | succ d ih =>
    intro id h
    unfold allRefsUpTo at h
    unfold resolveRefAux
    cases hl : lookupRes table id with
    | none => rw [hl] at h; exact Bool.noConfusion h
    | some v =>
      cases v with
      | literal s => rw [hl] at h; exact Bool.noConfusion h
      | reference next =>
        rw [hl] at h
        exact ih next h

/-- C8: reference-following during resolution is bounded by the fixed
maximum indirection depth: for every resource table and resource id whose
reference chain consists of references beyond that bound, resolution
terminates with the resource-cycle error (the resolver is a total function
of an explicit depth counter, so it can never loop forever). -/
theorem resolveRes_cycle_error (table : List (Nat × ResValue)) (id : Nat)
    (h : allRefsUpTo table id maxIndirectionDepth = true) :
    resolveRes table id = .error .resourceCycle :=
  resolveRefAux_cycle table maxIndirectionDepth id h

/-- C8 witness: a synthetic self-referencing table resolves to the
resource-cycle error. -/
theorem resolveRes_cycle_error_witness :
    resolveRes [(0, ResValue.reference 0)] 0 = .error .resourceCycle :=
  resolveRes_cycle_error [(0, ResValue.reference 0)] 0 (by decide)

/-- C9: an archive containing a .so entry but no entry under lib/arm64-v8a
and none under lib/armeabi yields SupportOS64 = false and
SupportOS32 = false. -/
theorem newAppParser_so_without_abi (env : ApkEnv) (name keyToolPath : String)
    (isIcon : Bool) (stat : FileStat) (entries : List ZipEntry)
    (manifest : AndroidManifest)
    (h1 : env.openRes = .ok ()) (h2 : env.statRes = .ok stat)
    (h3 : filepathExt stat.name = androidExt)
    (h4 : env.zipEntries = .ok entries)
    (h5 : (scanEntries entries).xmlFound = true)
    (h6 : env.manifestDecode = .ok manifest)
    (h7 : env.openPkgRes = .ok ())
    (hso : ∃ f ∈ entries, goHasSuf f.name ".so" = true)
    (hno : ∀ f ∈ entries, goHasPre f.name "lib/arm64-v8a" = false ∧
      goHasPre f.name "lib/armeabi" = false) :
    ∃ info : AppInfo, (newAppParser env name keyToolPath isIcon).1 = .ok info ∧
      info.SupportOS64 = false ∧ info.SupportOS32 = false := by
  rw [newAppParser_run env name keyToolPath isIcon stat entries manifest
    h1 h2 h3 h4 h5 h6 h7]
  have hsob : (entries.any fun f => goHasSuf f.name ".so") = true :=
    List.any_eq_true.mpr hso
  have h64b : (entries.any fun f => goHasPre f.name "lib/arm64-v8a") = false := by
    rw [List.any_eq_false]
    intro f hf
    simp [(hno f hf).1]
  have h32b : (entries.any fun f => goHasPre f.name "lib/armeabi") = false := by
    rw [List.any_eq_false]
    intro f hf
    simp [(hno f hf).2]
  refine ⟨_, rfl, ?_, ?_⟩ <;>
    simp [archFlags, scanEntries_spec, hsob, h64b, h32b]

/-- C9 witness: native libraries only under lib/x86 give both flags
false. -/
theorem newAppParser_so_without_abi_witness :
    ∃ info : AppInfo,
      (newAppParser (baseEnv [⟨"AndroidManifest.xml"⟩, ⟨"lib/x86/libx.so"⟩])
          "app.apk" "keytool" false).1 = .ok info ∧
      info.SupportOS64 = false ∧ info.SupportOS32 = false :=
  newAppParser_so_without_abi
    (baseEnv [⟨"AndroidManifest.xml"⟩, ⟨"lib/x86/libx.so"⟩]) "app.apk"
    "keytool" false ⟨"app.apk", 1024⟩
    [⟨"AndroidManifest.xml"⟩, ⟨"lib/x86/libx.so"⟩] baseManifest
    rfl rfl (by decide) rfl (by decide) rfl rfl
    (by decide) (by decide)

theorem goAtoi_syntax_error (s : String)
    (h : isDecimalIntegerString s = false) : goAtoi s = (0, false) := by
  unfold goAtoi
  unfold isDecimalIntegerString at h
  cases hs : s.toList with
  | nil => rfl
  | cons c rest =>
    rw [hs] at h
    have h' : (!(atoiDigits c rest).isEmpty &&
        (atoiDigits c rest).all Char.isDigit) = false := h
    have hcond : ((atoiDigits c rest).isEmpty ||
        !(atoiDigits c rest).all Char.isDigit) = true := by
      cases he : (atoiDigits c rest).isEmpty <;>
        cases ha : (atoiDigits c rest).all Char.isDigit <;>
          rw [he, ha] at h' <;> simp_all
    simp [hcond]

/-- C10: a manifest whose versionCode attribute is absent (decoded as the
empty string) or is not a decimal integer string still parses with a nil
error, and the Build field of the resulting AppInfo is 0: the
integer-conversion failure of strconv.Atoi is silently discarded. -/
theorem parseApkFile_bad_versionCode (manifest : AndroidManifest)
    (h : isDecimalIntegerString manifest.versionCode = false) :
    parseApkFile (some (.ok manifest)) = .ok (parseApkFileOfManifest manifest) ∧
      (parseApkFileOfManifest manifest).Build = 0 := by
  refine ⟨rfl, ?_⟩
  simp [parseApkFileOfManifest, goAtoi_syntax_error manifest.versionCode h]

/-- C10 witness: an absent versionCode (empty string) and a non-numeric
versionCode both yield a successful parse with Build 0. -/
theorem parseApkFile_bad_versionCode_witness :
    (parseApkFile (some (.ok { baseManifest with versionCode := "" })) =
        .ok (parseApkFileOfManifest { baseManifest with versionCode := "" }) ∧
      (parseApkFileOfManifest { baseManifest with versionCode := "" }).Build = 0) ∧
    (parseApkFile (some (.ok { baseManifest with versionCode := "1.2" })) =
        .ok (parseApkFileOfManifest { baseManifest with versionCode := "1.2" }) ∧
      (parseApkFileOfManifest { baseManifest with versionCode := "1.2" }).Build = 0) :=
  ⟨parseApkFile_bad_versionCode { baseManifest with versionCode := "" } (by decide),
   parseApkFile_bad_versionCode { baseManifest with versionCode := "1.2" } (by decide)⟩

end Paser
